import Mathlib

/-!
# GoFur: request dispatch, plug composition and the request Context

A shallow embedding of `gofur.go`.  Go functions that only read their arguments
become Lean functions; methods that mutate the `*Context` they receive return
the updated `Context`; handlers, plugs and error handlers, which may touch any
state of the running program, pass an explicit world `σ` besides the `Context`.
The closure returned by `makeHTTPRouterHandle` is represented by the variables
it captures (`Handle`), because its body assigns to the captured `h`.
-/

set_option autoImplicit false

namespace GoFur

/-! ## Values of the Go runtime and the libraries `gofur.go` calls -/

/-- Message of a non-nil Go `error`.  A Go `error` result is an `Option GoError`:
`none` is `nil`, `some msg` is a failure. -/
abbrev GoError := String

/-- Go values of static type `any` that the extension bag stores; `nil` is the nil interface. -/
inductive GoAny where
  | nil
  | int (i : Int)
  | str (s : String)
  | bool (b : Bool)
  deriving DecidableEq, Repr

/-- Go `context.Context` values, as the tree the standard library builds:
`context.Background()`, a cancellable child (the kind `net/http` attaches to an
inbound request, identified by `id`), and `context.WithValue(parent, key, val)`
with a `string` key. -/
inductive GoContext where
  | background
  | withCancel (parent : GoContext) (id : Nat)
  | withValue (parent : GoContext) (key : String) (val : GoAny)
  deriving DecidableEq, Repr

namespace GoContext

/-- Modelled from the spec: `Value` of the Go standard library's `context` package is not
under src/.  The innermost `WithValue` node whose key equals `k` answers; the root
answers `nil`, the absent marker. -/
def Value : GoContext → String → GoAny
  | background, _ => GoAny.nil
  | withCancel p _, k => p.Value k
  | withValue p key val, k => if key = k then val else p.Value k

/-- Cancellation state of a scope, given the ids of the cancel functions that have been
called: a scope is cancelled when it or one of its ancestors is.  The background
scope is never cancelled. -/
def cancelled (fired : List Nat) : GoContext → Bool
  | background => false
  | withCancel p id => decide (id ∈ fired) || p.cancelled fired
  | withValue p _ _ => p.cancelled fired

/-- Ancestry of scopes: `c.derivedFrom anc` holds when `anc` is `c` itself or lies on the
parent chain of `c`. -/
def derivedFrom : GoContext → GoContext → Bool
  | background, anc => decide (anc = background)
  | withCancel p id, anc => decide (anc = withCancel p id) || p.derivedFrom anc
  | withValue p key val, anc => decide (anc = withValue p key val) || p.derivedFrom anc

end GoContext

/-- One call made on an `http.ResponseWriter`. -/
inductive ResponseOp where
  | redirect (url : String) (code : Int)
  | write (body : String)
  deriving DecidableEq, Repr

/-- State of an `http.ResponseWriter`: the calls made on it so far, oldest first. -/
abbrev ResponseWriter := List ResponseOp

/-- The part of `*http.Request` the dispatch core reads: method, path and the request's
own scope (`r.Context()`). -/
structure Request where
  Method : String
  Path : String
  ctx : GoContext
  deriving DecidableEq, Repr

/-- Entry of `httprouter.Params`: one named segment bound during route matching. -/
structure Param where
  Key : String
  Value : String
  deriving DecidableEq, Repr

/-- Ordered route parameters, `httprouter.Params`. -/
abbrev Params := List Param

/-- Modelled from the spec: `httprouter.Params.ByName` belongs to the router library and is
not under src/.  It returns the value of the first pair whose key is `name`, and
the empty string when there is none. -/
def Params.ByName : Params → String → String
  | [], _ => ""
  | p :: ps, name => if p.Key = name then p.Value else Params.ByName ps name

/-- Constant `http.StatusMultipleChoices` of `net/http`. -/
def StatusMultipleChoices : Int := 300

/-- Constant `http.StatusTemporaryRedirect` of `net/http`. -/
def StatusTemporaryRedirect : Int := 307

/-- Call `http.Redirect(w, r, url, code)` of `net/http`: it replies to the request with a
redirect to `url` carrying status `code`; recorded as one call on the writer. -/
def httpRedirect (w : ResponseWriter) (_r : Request) (url : String) (code : Int) :
    ResponseWriter :=
  w ++ [ResponseOp.redirect url code]

/-- A `templ.Component`: its `Render(ctx, w)` method, which receives a scope and an output
sink and may fail. -/
abbrev Component := GoContext → ResponseWriter → Option GoError × ResponseWriter

/-! ## Context -/

/-- Go `type Context struct`. -/
structure Context where
  Response : ResponseWriter
  Request : Request
  ctx : GoContext
  params : Params
  deriving DecidableEq, Repr

/-- Go `newContext`. -/
def newContext (w : ResponseWriter) (r : Request) (params : Params) : Context :=
  { Response := w, Request := r, ctx := GoContext.background, params := params }

namespace Context

/-- Go `(*Context).Param`. -/
def Param (c : Context) (name : String) : String :=
  c.params.ByName name

/-- Go `(*Context).Render`: the component gets the Context's scope and its writer. -/
def Render (c : Context) (component : Component) : Option GoError × Context :=
  let out := component c.ctx c.Response
  (out.1, { c with Response := out.2 })

/-- Go `(*Context).Redirect`. -/
def Redirect (c : Context) (url : String) (code : Int) : Option GoError × Context :=
  if code < StatusMultipleChoices ∨ code > StatusTemporaryRedirect then
    (some "invalid redirect code", c)
  else
    (none, { c with Response := httpRedirect c.Response c.Request url code })

/-- Go `(*Context).Set`. -/
def Set (c : Context) (key : String) (value : GoAny) : Context :=
  { c with ctx := GoContext.withValue c.ctx key value }

/-- Go `(*Context).Get`. -/
def Get (c : Context) (key : String) : GoAny :=
  c.ctx.Value key

end Context

/-! ## Handlers, plugs and the dispatcher -/

/-- Go `type Handler func(c *Context) error`: run on a Context in a world, it yields the
returned error, the Context as the handler left it, and the new world. -/
abbrev Handler (σ : Type) := Context → σ → Option GoError × Context × σ

/-- Go `type Plug func(Handler) Handler`; applying a plug may itself act on the world. -/
abbrev Plug (σ : Type) := Handler σ → σ → Handler σ × σ

/-- Go `type ErrorHandler func(error, *Context) error`. -/
abbrev ErrorHandler (σ : Type) := GoError → Context → σ → Option GoError × Context × σ

/-- Go `type methodNotAllowedHandler struct`. -/
structure methodNotAllowedHandler (σ : Type) where
  handler : Handler σ

/-- Variables captured by the closure that `makeHTTPRouterHandle` returns: the handler
variable `h`, which the closure body reassigns, and the route-scoped `plugs`.  The
receiver `gf` is captured by pointer and is read when the closure runs. -/
structure Handle (σ : Type) where
  h : Handler σ
  plugs : List (Plug σ)

/-- One entry of the route table of `httprouter.Router`. -/
structure Route (σ : Type) where
  method : String
  path : String
  handle : Handle σ

/-- The fields of `httprouter.Router` that `gofur.go` assigns: the fallback handler and
the registered routes, oldest first. -/
structure Router (σ : Type) where
  MethodNotAllowed : Option (methodNotAllowedHandler σ)
  routes : List (Route σ)

/-- Go `type Gofur struct`. -/
structure Gofur (σ : Type) where
  ErrorHandler : ErrorHandler σ
  router : Router σ
  plugs : List (Plug σ)

/-- Go `defaultErrorHandler`: logs through `slog.Error` (the log sink is `slogError`) and
returns nil. -/
def defaultErrorHandler {σ : Type} (slogError : GoError → σ → σ) : ErrorHandler σ :=
  fun err c s => (none, c, slogError err s)

/-- Go `New`. -/
def New {σ : Type} (slogError : GoError → σ → σ) : Gofur σ :=
  { ErrorHandler := defaultErrorHandler slogError
    router := { MethodNotAllowed := none, routes := [] }
    plugs := [] }

/-- Go `methodNotAllowedHandler.ServeHTTP`: the error `h.handler` returns is dropped. -/
def methodNotAllowedHandler.ServeHTTP {σ : Type} (h : methodNotAllowedHandler σ)
    (w : ResponseWriter) (r : Request) (s : σ) : Context × σ :=
  let ctx := newContext w r []
  (h.handler ctx s).2

/-- The loop `for i := len(plugs) - 1; i >= 0; i-- { h = plugs[i](h) }`, entered with
`n = len(plugs)`; the pass with `n = i + 1` applies `plugs[i]`. -/
def wrapLoop {σ : Type} (plugs : List (Plug σ)) : Nat → Handler σ → σ → Handler σ × σ
  | 0, h, s => (h, s)
  | i + 1, h, s =>
    match plugs[i]? with
    | some p => wrapLoop plugs i (p h s).1 (p h s).2
    | none => wrapLoop plugs i h s

namespace Gofur

variable {σ : Type}

/-- Go `(*Gofur).MethodNotAllowed`. -/
def MethodNotAllowed (gf : Gofur σ) (h : Handler σ) : Gofur σ :=
  { gf with router := { gf.router with MethodNotAllowed := some { handler := h } } }

/-- Go `(*Gofur).Plug`. -/
def Plug (gf : Gofur σ) (plugs : List (GoFur.Plug σ)) : Gofur σ :=
  { gf with plugs := gf.plugs ++ plugs }

/-- Go `(*Gofur).makeHTTPRouterHandle`: the closure as first built, holding the terminal
handler in `h`. -/
def makeHTTPRouterHandle (_gf : Gofur σ) (h : Handler σ) (plugs : List (GoFur.Plug σ)) :
    Handle σ :=
  { h := h, plugs := plugs }

/-- Go `(*Gofur).add`; `router.Handle` stores the handle under (method, path). -/
def add (gf : Gofur σ) (method path : String) (h : Handler σ)
    (plugs : List (GoFur.Plug σ)) : Gofur σ :=
  { gf with router := { gf.router with
      routes := gf.router.routes ++
        [{ method := method, path := path, handle := gf.makeHTTPRouterHandle h plugs }] } }

/-- Go `(*Gofur).Get`. -/
def Get (gf : Gofur σ) (path : String) (h : Handler σ) (plugs : List (GoFur.Plug σ)) :
    Gofur σ :=
  gf.add "GET" path h plugs

/-- Go `(*Gofur).Post`. -/
def Post (gf : Gofur σ) (path : String) (h : Handler σ) (plugs : List (GoFur.Plug σ)) :
    Gofur σ :=
  gf.add "POST" path h plugs

end Gofur

namespace Handle

variable {σ : Type}

/-- The handler variable `h` of the closure after both wrapping loops of one call, with
the world as the plug applications left it. -/
def compose (gf : Gofur σ) (hd : Handle σ) (s : σ) : Handler σ × σ :=
  let r1 := wrapLoop hd.plugs hd.plugs.length hd.h s
  wrapLoop gf.plugs gf.plugs.length r1.1 r1.2

/-- Body of the closure returned by `makeHTTPRouterHandle`, called by the router with
the parameters it extracted.  The result holds the closure with its reassigned `h`,
the Context at the end of the call and the world. -/
def call (gf : Gofur σ) (hd : Handle σ) (w : ResponseWriter) (r : Request)
    (params : Params) (s : σ) : Handle σ × Context × σ :=
  let ctx := newContext w r params
  let hs := compose gf hd s
  match hs.1 ctx hs.2 with
  | (some err, c, s3) => ({ hd with h := hs.1 }, (gf.ErrorHandler err c s3).2)
  | (none, c, s3) => ({ hd with h := hs.1 }, c, s3)

end Handle

namespace Router

variable {σ : Type}

/-- The handle registered under (method, path), the first one when several are. -/
def lookup : List (Route σ) → String → String → Option (Handle σ)
  | [], _, _ => none
  | e :: es, method, path =>
    if e.method = method ∧ e.path = path then some e.handle else lookup es method path

/-- The route table with the closure registered under (method, path) replaced by its
state after a call. -/
def store : List (Route σ) → String → String → Handle σ → List (Route σ)
  | [], _, _, _ => []
  | e :: es, method, path, hd =>
    if e.method = method ∧ e.path = path then { e with handle := hd } :: es
    else e :: store es method path hd

end Router

/-- One request served by the route registered under (method, path): the router calls
the stored closure with the parameters it extracted, and the closure keeps the
value its body assigned to `h`.  Matching a request path against the registered
patterns is the router library's work; the pattern that matched and the
extracted parameters are inputs here.  `none` when no such route is registered. -/
def Gofur.dispatch {σ : Type} (gf : Gofur σ) (method path : String) (w : ResponseWriter)
    (r : Request) (params : Params) (s : σ) : Option (Gofur σ × Context × σ) :=
  match Router.lookup gf.router.routes method path with
  | none => none
  | some hd =>
    let out := hd.call gf w r params s
    some ({ gf with router := { gf.router with
              routes := Router.store gf.router.routes method path out.1 } }, out.2)

/-! ## Recording plugs and handlers

The plugs and handlers of the ordering scenario: the world is the trace recorded so
far, oldest entry first. -/

/-- A plug applied without touching the world. -/
def Plug.lift {σ : Type} (f : Handler σ → Handler σ) : Plug σ :=
  fun h s => (f h, s)

/-- Handler built by a recording plug: it records `name`, calls `next`, records `name`
again and returns what `next` returned. -/
def recordWrap (name : String) (next : Handler (List String)) : Handler (List String) :=
  fun c t =>
    let out := next c (t ++ [name])
    (out.1, out.2.1, out.2.2 ++ [name])

/-- Plug that records its name before and after the handler it wraps. -/
def recordPlug (name : String) : Plug (List String) :=
  Plug.lift (recordWrap name)

/-- Terminal handler that records `name` and succeeds. -/
def recordHandler (name : String) : Handler (List String) :=
  fun c t => (none, c, t ++ [name])

/-- Terminal handler that records `name` and fails with `err`. -/
def failingHandler (name : String) (err : GoError) : Handler (List String) :=
  fun c t => (some err, c, t ++ [name])

/-- A Gofur whose global plugs are recording plugs named `gs`, with no route yet. -/
def recordingApp (gs : List String) : Gofur (List String) :=
  (New (fun _ t => t)).Plug (gs.map recordPlug)

/-- Trace recorded by the first request to a route registered with recording route plugs
`rs` and terminal handler `recordHandler "H"`, on a Gofur with global recording
plugs `gs`. -/
def firstTrace (gs rs : List String) : List String :=
  match ((recordingApp gs).Get "/" (recordHandler "H") (rs.map recordPlug)).dispatch
      "GET" "/" [] { Method := "GET", Path := "/", ctx := GoContext.background } [] [] with
  | some out => out.2.2
  | none => []

/-- Traces recorded by the first and by the second of two identical requests to that
route, each started on an empty trace. -/
def twoTraces (gs rs : List String) : List String × List String :=
  let req : Request := { Method := "GET", Path := "/", ctx := GoContext.background }
  match ((recordingApp gs).Get "/" (recordHandler "H") (rs.map recordPlug)).dispatch
      "GET" "/" [] req [] [] with
  | none => ([], [])
  | some out1 =>
    match out1.1.dispatch "GET" "/" [] req [] [] with
    | none => (out1.2.2, [])
    | some out2 => (out1.2.2, out2.2.2)

/-- Error handler that records `name` and returns `ret`. -/
def recordErrorHandler (name : String) (ret : Option GoError) : ErrorHandler (List String) :=
  fun _ c t => (ret, c, t ++ [name])

/-- Handler that records the value `Param name` has on the Context it is run on. -/
def paramProbe (name : String) : Handler (List String) :=
  fun c t => (none, c, t ++ [c.Param name])

/-- The router serving a request whose path is registered under another method only: it
calls `ServeHTTP` of the installed `MethodNotAllowed` handler; `none` when no
handler is installed and the router answers by itself. -/
def Router.serveMethodNotAllowed {σ : Type} (rt : Router σ) (w : ResponseWriter)
    (r : Request) (s : σ) : Option (Context × σ) :=
  match rt.MethodNotAllowed with
  | some m => some (m.ServeHTTP w r s)
  | none => none

/-- Onion composition as the specification words it: the terminal handler is wrapped by
the last plug of the list first, and the first plug of the list ends outermost. -/
def nest {σ : Type} : List (Plug σ) → Handler σ → σ → Handler σ × σ
  | [], h, s => (h, s)
  | p :: ps, h, s => p (nest ps h s).1 (nest ps h s).2

/-- The Context after a sequence of `Set` calls, applied left to right. -/
def setAll (c : Context) (kvs : List (String × GoAny)) : Context :=
  kvs.foldl (fun acc kv => acc.Set kv.1 kv.2) c

/-- Error handler that appends the failure and the Context it is given to a log, and
returns `ret`. -/
def logErrorHandler (ret : Option GoError) : ErrorHandler (List (GoError × Context)) :=
  fun err c log => (ret, c, log ++ [(err, c)])

/-- Result of running the composed chain of one call of the closure on the fresh
Context: the error it returns, the Context as it leaves it, and the world. -/
def Handle.chainResult {σ : Type} (gf : Gofur σ) (hd : Handle σ) (w : ResponseWriter)
    (r : Request) (params : Params) (s : σ) : Option GoError × Context × σ :=
  (Handle.compose gf hd s).1 (newContext w r params) (Handle.compose gf hd s).2

/-- The request used in the concrete scenarios: its own scope is a cancellable child of
the background scope, with cancel function 1. -/
def sampleRequest : Request :=
  { Method := "GET", Path := "/users/7", ctx := GoContext.withCancel GoContext.background 1 }

/-- Scopes with no cancellable node on their parent chain. -/
def GoContext.cancelFree : GoContext → Bool
  | GoContext.background => true
  | GoContext.withCancel _ _ => false
  | GoContext.withValue p _ _ => p.cancelFree

/-! ## Composition lemmas -/

theorem nest_append {σ : Type} (ps qs : List (Plug σ)) (h : Handler σ) (s : σ) :
    nest (ps ++ qs) h s = nest ps (nest qs h s).1 (nest qs h s).2 := by
  induction ps with
  | nil => rfl
  | cons p ps ih =>
    show p (nest (ps ++ qs) h s).1 (nest (ps ++ qs) h s).2 = _
    rw [ih]
    rfl

theorem wrapLoop_append_length {σ : Type} (pre suf : List (Plug σ)) (h : Handler σ) (s : σ) :
    wrapLoop (pre ++ suf) pre.length h s = nest pre h s := by
  induction pre using List.reverseRecOn generalizing suf h s with
  | nil => rfl
  | append_singleton init p ih =>
    have hget : (init ++ [p] ++ suf)[init.length]? = some p := by
      rw [List.append_assoc, List.getElem?_append_right (le_refl _)]
      simp
    rw [List.length_append, List.length_singleton, wrapLoop, hget]
    simp only
    rw [List.append_assoc, ih, nest_append]
    rfl

theorem wrapLoop_eq_nest {σ : Type} (plugs : List (Plug σ)) (h : Handler σ) (s : σ) :
    wrapLoop plugs plugs.length h s = nest plugs h s := by
  simpa using wrapLoop_append_length plugs [] h s

theorem compose_eq_nest {σ : Type} (gf : Gofur σ) (hd : Handle σ) (s : σ) :
    Handle.compose gf hd s = nest (gf.plugs ++ hd.plugs) hd.h s := by
  simp only [Handle.compose, wrapLoop_eq_nest, nest_append]

theorem nest_lift {σ : Type} (fs : List (Handler σ → Handler σ)) (h : Handler σ) (s : σ) :
    nest (fs.map Plug.lift) h s = (fs.foldr (fun f acc => f acc) h, s) := by
  induction fs with
  | nil => rfl
  | cons f fs ih => simp only [List.map_cons, nest, ih, Plug.lift, List.foldr_cons]

theorem recordWrap_foldr (names : List String) (inner : Handler (List String))
    (c : Context) (t : List String) :
    (names.map recordWrap).foldr (fun f acc => f acc) inner c t =
      ((inner c (t ++ names)).1, (inner c (t ++ names)).2.1,
        (inner c (t ++ names)).2.2 ++ names.reverse) := by
  induction names generalizing t with
  | nil => simp
  | cons n ns ih =>
    simp only [List.map_cons, List.foldr_cons, recordWrap, ih, List.reverse_cons,
      List.append_assoc, List.singleton_append]

theorem nest_recordPlug (names : List String) (inner : Handler (List String))
    (s : List String) :
    nest (names.map recordPlug) inner s =
      ((names.map recordWrap).foldr (fun f acc => f acc) inner, s) := by
  have h := nest_lift (names.map recordWrap) inner s
  simpa [recordPlug, List.map_map, Function.comp_def] using h

theorem call_recording (gf : Gofur (List String)) (gs rs : List String)
    (hplugs : gf.plugs = gs.map recordPlug) (w : ResponseWriter) (r : Request)
    (params : Params) (t : List String) :
    ((gf.makeHTTPRouterHandle (recordHandler "H") (rs.map recordPlug)).call
        gf w r params t).2 =
      (newContext w r params, t ++ gs ++ rs ++ ["H"] ++ rs.reverse ++ gs.reverse) := by
  simp only [Handle.call, compose_eq_nest, Gofur.makeHTTPRouterHandle, hplugs]
  rw [← List.map_append, nest_recordPlug]
  simp [recordWrap_foldr, recordHandler]

theorem dispatch_recordingApp (gs rs : List String) (method path : String)
    (w : ResponseWriter) (r : Request) (params : Params) (t : List String) :
    (((recordingApp gs).add method path (recordHandler "H") (rs.map recordPlug)).dispatch
        method path w r params t).map (fun out => out.2) =
      some (newContext w r params, t ++ gs ++ rs ++ ["H"] ++ rs.reverse ++ gs.reverse) := by
  have h := call_recording
    ((recordingApp gs).add method path (recordHandler "H") (rs.map recordPlug)) gs rs
    (by simp [recordingApp, Gofur.add, Gofur.Plug, New]) w r params t
  simp only [Gofur.dispatch, Gofur.add, recordingApp, New, Gofur.Plug, Router.lookup,
    List.nil_append, and_self, if_true, Option.map_some']
  simp only [Gofur.makeHTTPRouterHandle, recordingApp, New, Gofur.Plug, Gofur.add,
    List.nil_append] at h
  rw [← h]
  rfl

theorem call_recording_wrapped (gf : Gofur (List String)) (gs rs : List String)
    (hplugs : gf.plugs = gs.map recordPlug) (inner : Handler (List String))
    (hinner : ∀ c t, (inner c t).1 = none) (w : ResponseWriter) (r : Request)
    (params : Params) (t : List String) :
    Handle.call gf { h := inner, plugs := rs.map recordPlug } w r params t =
      ({ h := ((gs ++ rs).map recordWrap).foldr (fun f acc => f acc) inner,
         plugs := rs.map recordPlug },
        (inner (newContext w r params) (t ++ (gs ++ rs))).2.1,
        (inner (newContext w r params) (t ++ (gs ++ rs))).2.2 ++ (gs ++ rs).reverse) := by
  simp only [Handle.call, compose_eq_nest, hplugs]
  rw [← List.map_append, nest_recordPlug]
  simp only [recordWrap_foldr, hinner]

theorem twoTraces_eq (gs rs : List String) :
    twoTraces gs rs =
      (gs ++ rs ++ ["H"] ++ rs.reverse ++ gs.reverse,
       gs ++ rs ++ (gs ++ rs) ++ ["H"] ++ (rs.reverse ++ gs.reverse) ++
         (rs.reverse ++ gs.reverse)) := by
  simp only [twoTraces, Gofur.dispatch, Gofur.Get, Gofur.add, recordingApp, New, Gofur.Plug,
    Router.lookup, Router.store, List.nil_append, and_self, if_true,
    Gofur.makeHTTPRouterHandle]
  rw [call_recording_wrapped _ gs rs (by rfl) _ (fun _ _ => rfl)]
  simp only [Router.lookup, and_self, if_true]
  rw [call_recording_wrapped _ gs rs (by rfl) _
    (by intro c t; simp [recordWrap_foldr, recordHandler])]
  simp [recordWrap_foldr, recordHandler]

/-! ## Scope lemmas -/

theorem cancelFree_not_cancelled (g : GoContext) (fired : List Nat)
    (hg : g.cancelFree = true) : g.cancelled fired = false := by
  induction g with
  | background => rfl
  | withCancel p id ih => simp [GoContext.cancelFree] at hg
  | withValue p key val ih => exact ih hg

theorem cancelFree_not_derivedFrom_withCancel (g p : GoContext) (id : Nat)
    (hg : g.cancelFree = true) : g.derivedFrom (GoContext.withCancel p id) = false := by
  induction g with
  | background => simp [GoContext.derivedFrom]
  | withCancel q j ih => simp [GoContext.cancelFree] at hg
  | withValue q key val ih =>
    simp only [GoContext.derivedFrom, Bool.or_eq_false_iff]
    exact ⟨by simp, ih hg⟩

theorem setAll_cancelFree (c : Context) (kvs : List (String × GoAny))
    (hc : c.ctx.cancelFree = true) : (setAll c kvs).ctx.cancelFree = true := by
  induction kvs generalizing c with
  | nil => exact hc
  | cons kv kvs ih => exact ih (c.Set kv.1 kv.2) hc

/-! ## Claims -/

/-- C1, as the code has it: on the first dispatch of a freshly registered route with global
recording plugs `gs` (in the order given to `Plug`) and route-scoped recording
plugs `rs` (in the order given at registration) around a terminal handler that
records H, the trace is `gs`, then `rs`, then H, then `rs` reversed, then `gs`
reversed: the first-registered plug runs first.  For global plugs A, B and route
plugs C, D the trace is A B C D H D C B A. -/
theorem first_dispatch_trace :
    (∀ (gs rs : List String) (method path : String) (w : ResponseWriter) (r : Request)
        (params : Params) (t : List String),
      (((recordingApp gs).add method path (recordHandler "H") (rs.map recordPlug)).dispatch
          method path w r params t).map (fun out => out.2.2) =
        some (t ++ gs ++ rs ++ ["H"] ++ rs.reverse ++ gs.reverse)) ∧
    firstTrace ["A", "B"] ["C", "D"] = ["A", "B", "C", "D", "H", "D", "C", "B", "A"] := by
  refine ⟨?_, by decide⟩
  intro gs rs method path w r params t
  have h := dispatch_recordingApp gs rs method path w r params t
  have h2 := congrArg (Option.map Prod.snd) h
  simpa [Option.map_map, Function.comp_def] using h2

/-- C1 as stated fails: with global plugs A, B and route plugs C, D the first dispatch does
not record B A D C H C D A B. -/
theorem first_dispatch_trace_not_last_first :
    firstTrace ["A", "B"] ["C", "D"] ≠ ["B", "A", "D", "C", "H", "C", "D", "A", "B"] := by
  decide

/-- C2 fails on the code: with one global recording plug A and terminal handler H, the
first of two identical requests to the same registered route records A H A and
the second records A A H A A, because the closure keeps the wrapped handler in its
captured variable `h` and wraps it again.  In general the second request runs
every plug twice, so its trace is longer by two entries for each plug. -/
theorem second_dispatch_trace_differs :
    twoTraces ["A"] [] = (["A", "H", "A"], ["A", "A", "H", "A", "A"]) ∧
    (twoTraces ["A"] []).1 ≠ (twoTraces ["A"] []).2 ∧
    (∀ gs rs : List String,
      twoTraces gs rs =
        (gs ++ rs ++ ["H"] ++ rs.reverse ++ gs.reverse,
         gs ++ rs ++ (gs ++ rs) ++ ["H"] ++ (rs.reverse ++ gs.reverse) ++
           (rs.reverse ++ gs.reverse))) ∧
    (∀ gs rs : List String,
      (twoTraces gs rs).2.length = (twoTraces gs rs).1.length + 2 * (gs.length + rs.length)) := by
  refine ⟨by decide, by decide, twoTraces_eq, ?_⟩
  intro gs rs
  rw [twoTraces_eq]
  simp only [List.length_append, List.length_reverse, List.length_singleton]
  omega

/-- C8: on the first dispatch of a freshly registered route the handler that runs is the
onion over the global plugs followed by the route-scoped plugs, each plug applied
once, so every global plug wraps outside every route plug and every plug outside
the terminal handler; for recording plugs the trace splits into the forward
entries of the global plugs, those of the route plugs, the terminal handler, and
the unwind entries of the route plugs and then of the global plugs, mirrored. -/
theorem first_dispatch_global_outside_route :
    (∀ (σ : Type) (gf : Gofur σ) (h : Handler σ) (plugs : List (Plug σ)) (s : σ),
      Handle.compose gf (gf.makeHTTPRouterHandle h plugs) s = nest (gf.plugs ++ plugs) h s) ∧
    (∀ (gs rs : List String) (method path : String) (w : ResponseWriter) (r : Request)
        (params : Params) (t : List String),
      ∃ Gf Rf Ru Gu : List String,
        (((recordingApp gs).add method path (recordHandler "H")
            (rs.map recordPlug)).dispatch method path w r params t).map
              (fun out => out.2.2) = some (t ++ Gf ++ Rf ++ ["H"] ++ Ru ++ Gu) ∧
        Gf.Perm gs ∧ Rf.Perm rs ∧ Ru = Rf.reverse ∧ Gu = Gf.reverse) := by
  refine ⟨fun σ gf h plugs s => compose_eq_nest gf _ s, ?_⟩
  intro gs rs method path w r params t
  refine ⟨gs, rs, rs.reverse, gs.reverse, ?_, List.Perm.refl _, List.Perm.refl _, rfl, rfl⟩
  have h := dispatch_recordingApp gs rs method path w r params t
  have h2 := congrArg (Option.map Prod.snd) h
  simpa [Option.map_map, Function.comp_def] using h2

/-- C3: for every call of a route's closure, when the composed chain run on the fresh
Context returns a failure `e` and leaves Context `c` and world `s3`, the outcome
of the call is the state the current ErrorHandler leaves when run once on
`(e, c)` from `s3`, and when the chain returns nil the outcome is the chain's own;
an ErrorHandler with the same effect and any other return value gives the same
outcome; and with an ErrorHandler that logs its arguments, the log grows by
exactly the one entry `(e, c)` on a failure and not at all otherwise. -/
theorem errorHandler_once_on_failure :
    (∀ (σ : Type) (gf : Gofur σ) (hd : Handle σ) (w : ResponseWriter) (r : Request)
        (params : Params) (s : σ),
      (Handle.call gf hd w r params s).2 =
        match Handle.chainResult gf hd w r params s with
        | (some e, c, s3) => (gf.ErrorHandler e c s3).2
        | (none, c, s3) => (c, s3)) ∧
    (∀ (σ : Type) (gf : Gofur σ) (hd : Handle σ) (w : ResponseWriter) (r : Request)
        (params : Params) (s : σ) (ret : GoError → Context → σ → Option GoError),
      (Handle.call { gf with ErrorHandler := fun e c x => (ret e c x, (gf.ErrorHandler e c x).2) }
          hd w r params s).2 = (Handle.call gf hd w r params s).2) ∧
    (∀ (gf : Gofur (List (GoError × Context))) (hd : Handle (List (GoError × Context)))
        (w : ResponseWriter) (r : Request) (params : Params)
        (log : List (GoError × Context)) (ret : Option GoError),
      (Handle.call { gf with ErrorHandler := logErrorHandler ret } hd w r params log).2 =
        ((Handle.chainResult gf hd w r params log).2.1,
          (Handle.chainResult gf hd w r params log).2.2 ++
            match (Handle.chainResult gf hd w r params log).1 with
            | some e => [(e, (Handle.chainResult gf hd w r params log).2.1)]
            | none => [])) := by
  refine ⟨?_, ?_, ?_⟩
  · intro σ gf hd w r params s
    simp only [Handle.call, Handle.chainResult]
    split <;> simp_all
  · intro σ gf hd w r params s ret
    simp only [Handle.call, Handle.compose]
  · intro gf hd w r params log ret
    simp only [Handle.call, Handle.chainResult, Handle.compose, logErrorHandler]
    split <;> simp_all

/-- C4: `Redirect(url, code)` returns a failure exactly when `code < 300` or `code > 307`;
it fails for 200 and 308; for every code from 300 to 307, among them 300, 301 and
307, it returns nil and adds to the Response one redirect to `url` with status
`code`, leaving the rest of the Context as it was. -/
theorem redirect_fails_iff_outside_300_307 (c : Context) (url : String) (code : Int) :
    (((c.Redirect url code).1 ≠ none) ↔ (code < 300 ∨ code > 307)) ∧
    (c.Redirect url code =
      if code < 300 ∨ code > 307 then (some "invalid redirect code", c)
      else (none, { c with Response := c.Response ++ [ResponseOp.redirect url code] })) ∧
    (c.Redirect url 200).1 ≠ none ∧ (c.Redirect url 308).1 ≠ none ∧
    (c.Redirect url 300).1 = none ∧ (c.Redirect url 301).1 = none ∧
    (c.Redirect url 307).1 = none := by
  refine ⟨?_, ?_, ?_, ?_, ?_, ?_, ?_⟩
  · simp only [Context.Redirect, StatusMultipleChoices, StatusTemporaryRedirect]
    split <;> simp_all
  · simp only [Context.Redirect, StatusMultipleChoices, StatusTemporaryRedirect, httpRedirect]
  all_goals simp [Context.Redirect, StatusMultipleChoices, StatusTemporaryRedirect]

/-- C5: `Param(name)` is total: on every Context and for every name it returns the value
of the first pair of the ordered parameter list whose key is `name`, and the empty
string when the list has no such pair, so the empty string for every name when
the list is empty. -/
theorem param_first_binding_or_empty (c : Context) (name : String) :
    c.Param name =
      ((c.params.find? (fun p => decide (p.Key = name))).map Param.Value).getD "" ∧
    ((c.params.find? (fun p => decide (p.Key = name))) = none ↔ ∀ p ∈ c.params, p.Key ≠ name) ∧
    (∀ (w : ResponseWriter) (r : Request), (newContext w r []).Param name = "") ∧
    ({ c with params := [⟨"id", "7"⟩, ⟨"id", "8"⟩] }.Param "id" = "7") ∧
    ({ c with params := [⟨"id", "7"⟩] }.Param "missing" = "") := by
  refine ⟨?_, ?_, fun w r => rfl, by simp [Context.Param, Params.ByName],
    by simp [Context.Param, Params.ByName]⟩
  · unfold Context.Param
    induction c.params with
    | nil => rfl
    | cons p ps ih =>
      by_cases hp : p.Key = name
      · simp [Params.ByName, List.find?, hp]
      · simp [Params.ByName, List.find?, hp, ih]
  · simp [List.find?_eq_none]

/-- C6: for keys `k ≠ k2`, after `Set(k, v)` `Get(k)` returns `v`; after `Set(k, v)` and
then `Set(k, v2)` `Get(k)` returns `v2`; `Set(k, v)` leaves `Get(k2)` and the
Response, Request and route parameters unchanged; and on a Context fresh from
`newContext` `Get(k)` returns nil. -/
theorem set_get_finite_map (c : Context) (k k2 : String) (v v2 : GoAny)
    (w : ResponseWriter) (r : Request) (params : Params) (hk : k ≠ k2) :
    (c.Set k v).Get k = v ∧
    ((c.Set k v).Set k v2).Get k = v2 ∧
    (c.Set k v).Get k2 = c.Get k2 ∧
    ((c.Set k v).Response = c.Response ∧ (c.Set k v).Request = c.Request ∧
      (c.Set k v).params = c.params) ∧
    (newContext w r params).Get k = GoAny.nil := by
  refine ⟨?_, ?_, ?_, ⟨rfl, rfl, rfl⟩, rfl⟩
  · simp [Context.Set, Context.Get, GoContext.Value]
  · simp [Context.Set, Context.Get, GoContext.Value]
  · simp [Context.Set, Context.Get, GoContext.Value, hk]

/-- C6 at a concrete input: keys "user" and "role" on a fresh Context. -/
theorem set_get_finite_map_witness :
    "user" ≠ "role" ∧
    ((newContext [] sampleRequest []).Set "user" (GoAny.int 1)).Get "user" = GoAny.int 1 ∧
    (((newContext [] sampleRequest []).Set "user" (GoAny.int 1)).Set "user"
        (GoAny.str "x")).Get "user" = GoAny.str "x" ∧
    ((newContext [] sampleRequest []).Set "user" (GoAny.int 1)).Get "role" =
      (newContext [] sampleRequest []).Get "role" ∧
    (newContext [] sampleRequest []).Get "user" = GoAny.nil :=
  have h := set_get_finite_map (newContext [] sampleRequest []) "user" "role"
    (GoAny.int 1) (GoAny.str "x") [] sampleRequest [] (by decide)
  ⟨by decide, h.1, h.2.1, h.2.2.1, h.2.2.2.2⟩

/-- C7: the handler installed by `MethodNotAllowed(h)` serves a request by running `h`
once on `newContext w r []`, a Context that carries the request and the response
of the inbound request and no route parameter, so that `Param(name)` is the empty
string for every name and every request; a handler recording `Param(name)`
records the empty string exactly once. -/
theorem methodNotAllowed_fresh_context :
    (∀ (σ : Type) (gf : Gofur σ) (h : Handler σ) (w : ResponseWriter) (r : Request) (s : σ),
      (gf.MethodNotAllowed h).router.serveMethodNotAllowed w r s =
        some (h (newContext w r []) s).2) ∧
    (∀ (w : ResponseWriter) (r : Request),
      (newContext w r []).Response = w ∧ (newContext w r []).Request = r ∧
        (newContext w r []).params = []) ∧
    (∀ (w : ResponseWriter) (r : Request) (name : String),
      (newContext w r []).Param name = "") ∧
    (∀ (gf : Gofur (List String)) (name : String) (w : ResponseWriter) (r : Request)
        (t : List String),
      (gf.MethodNotAllowed (paramProbe name)).router.serveMethodNotAllowed w r t =
        some (newContext w r [], t ++ [""])) :=
  ⟨fun _ _ _ _ _ _ => rfl, fun _ _ => ⟨rfl, rfl, rfl⟩, fun _ _ _ => rfl,
    fun _ _ _ _ _ => rfl⟩

/-- C9, as the code has it: the scope of the Context that `newContext` builds is the
background scope whatever the request is; after any sequence of `Set` calls it is
still never cancelled, whichever cancel functions have fired, and it is not
derived from any cancellable scope; `Render` hands that scope to the component. -/
theorem newContext_scope_is_background (w : ResponseWriter) (r : Request) (params : Params)
    (kvs : List (String × GoAny)) :
    (newContext w r params).ctx = GoContext.background ∧
    (∀ fired : List Nat, (setAll (newContext w r params) kvs).ctx.cancelled fired = false) ∧
    (∀ (p : GoContext) (id : Nat),
      (setAll (newContext w r params) kvs).ctx.derivedFrom (GoContext.withCancel p id)
        = false) ∧
    (∀ component : Component,
      ((newContext w r params).Render component).1 =
        (component GoContext.background w).1) :=
  ⟨rfl, fun fired => cancelFree_not_cancelled _ fired (setAll_cancelFree _ kvs rfl),
    fun p id => cancelFree_not_derivedFrom_withCancel _ p id (setAll_cancelFree _ kvs rfl),
    fun _ => rfl⟩

/-- C9 as stated fails: for a request whose own scope is a cancellable child of the
background scope, the scope of the Context built for it is not derived from the
request's scope, and once the request is cancelled the Context's scope is not. -/
theorem newContext_scope_not_from_request :
    (newContext [] sampleRequest []).ctx.derivedFrom sampleRequest.ctx = false ∧
    sampleRequest.ctx.cancelled [1] = true ∧
    (newContext [] sampleRequest []).ctx.cancelled [1] = false := by
  decide

/-- C10: serving through the handler installed by `MethodNotAllowed(h)` gives the outcome
of `h` with its returned error dropped: the same as for the handler that acts as
`h` and returns nil, and the same whatever the ErrorHandler is; with an
ErrorHandler that records E and a handler that records M and fails, only M is
recorded. -/
theorem methodNotAllowed_failure_discarded :
    (∀ (σ : Type) (gf : Gofur σ) (h : Handler σ) (w : ResponseWriter) (r : Request) (s : σ),
      (gf.MethodNotAllowed h).router.serveMethodNotAllowed w r s =
        (gf.MethodNotAllowed (fun c x => (none, (h c x).2))).router.serveMethodNotAllowed
          w r s) ∧
    (∀ (σ : Type) (gf : Gofur σ) (eh : ErrorHandler σ) (h : Handler σ) (w : ResponseWriter)
        (r : Request) (s : σ),
      (Gofur.MethodNotAllowed { gf with ErrorHandler := eh } h).router.serveMethodNotAllowed
          w r s = (gf.MethodNotAllowed h).router.serveMethodNotAllowed w r s) ∧
    (∀ (gf : Gofur (List String)) (ret : Option GoError) (err : GoError)
        (w : ResponseWriter) (r : Request) (t : List String),
      (Gofur.MethodNotAllowed { gf with ErrorHandler := recordErrorHandler "E" ret }
          (failingHandler "M" err)).router.serveMethodNotAllowed w r t =
        some (newContext w r [], t ++ ["M"])) :=
  ⟨fun _ _ _ _ _ _ => rfl, fun _ _ _ _ _ _ _ => rfl, fun _ _ _ _ _ _ => rfl⟩

end GoFur
